import Mathlib

/-!
Shallow embedding of `magenta/interfaces/midi/midi.py` (MIDI capture /
metronome / playback hub) and proofs about its specification claims.

Times and tick counters are modelled as rationals: every constant the code
manipulates (`1/16`, `60/qpm`, message timestamps) is dyadic or rational, and
the tick-counter arithmetic (`1 + k/16`) is exact in IEEE doubles for every
reachable value, so ℚ is a faithful model of the float arithmetic the claims
are about.
-/

/-- Python's `%` operator on floats for a positive modulus: `a % b =
a - b * floor (a / b)`, the floored remainder lying in `[0, b)` for `b > 0`. -/
def pymod (a b : ℚ) : ℚ := a - b * (⌊a / b⌋ : ℚ)

/-- The constant `_QUARTER_PER_BAR` from the source (the accent test is
`_TICK_COUNTER % _QUARTER_PER_BAR == 1`). -/
def _QUARTER_PER_BAR : ℚ := 4

/-- The value of the global `_TICK_COUNTER` at the start of the `n`-th
iteration of `Metronome.run`'s loop (0-based).  The source initialises it to
`1.` and every branch of the loop body adds `1. / sub_clock` with
`sub_clock = 16`. -/
def tick_counter : ℕ → ℚ
  | 0 => 1
  | n + 1 => tick_counter n + 1 / 16

/-- The accent (downbeat) condition tested by `Metronome.run`:
`_TICK_COUNTER % _QUARTER_PER_BAR == 1`. -/
def accent (n : ℕ) : Prop := pymod (tick_counter n) _QUARTER_PER_BAR = 1

/-- A note of the protobuf `NoteSequence` being captured.  `end_time`
defaults to `0` on creation (protobuf default); a note is "open" while its
pitch is mapped in `unclosed_notes`. -/
structure NoteEvent where
  pitch : ℕ
  velocity : ℕ
  start_time : ℚ
  end_time : ℚ

/-- The kinds of mido messages the hub consumes or produces. -/
inductive MsgType where
  | note_on
  | note_off
  | control_change
  deriving DecidableEq

/-- A mido message.  `note` holds the second status byte (note number for
note messages, controller number for control changes) and `velocity` the
third (velocity, or controller value).  `time` is the timestamp attribute,
which mido ignores when comparing messages. -/
structure Msg where
  type : MsgType
  channel : ℕ
  note : ℕ
  velocity : ℕ
  time : ℚ

/-- The status byte of a message, as in `mido.Message.bytes()`. -/
def statusByte (m : Msg) : ℕ :=
  match m.type with
  | MsgType.note_off => 128 + m.channel
  | MsgType.note_on => 144 + m.channel
  | MsgType.control_change => 176 + m.channel

/-- Model of `msg.bytes()`: the three raw bytes of a message (no timestamp). -/
def Msg.bytes (m : Msg) : List ℕ := [statusByte m, m.note, m.velocity]

/-- Model of `msg.bytes()[:2]`: status byte and first data byte, the prefix the
capture handler compares against the configured CC map entries. -/
def Msg.bytes2 (m : Msg) : List ℕ := [statusByte m, m.note]

/-- Model of `msg.hex()`: the key under which condition variables are registered.
Modelled as the byte list it prints (the timestamp is not part of it). -/
def Msg.hexKey (m : Msg) : List ℕ := m.bytes

/-- mido message equality (`msg == other`): all content attributes are
compared, the `time` attribute is ignored. -/
def msgEq (a b : Msg) : Prop :=
  a.type = b.type ∧ a.channel = b.channel ∧ a.note = b.note ∧ a.velocity = b.velocity

instance (a b : Msg) : Decidable (msgEq a b) := by
  unfold msgEq
  infer_instance

/-- Comparison key used by `sequence2midi`'s sort: the timestamp attribute. -/
def timeLE (a b : Msg) : Prop := a.time ≤ b.time

instance : DecidableRel timeLE := fun a b => inferInstanceAs (Decidable (a.time ≤ b.time))

instance : IsTotal Msg timeLE := ⟨fun a b => le_total a.time b.time⟩

instance : IsTrans Msg timeLE := ⟨fun _ _ _ h1 h2 => le_trans h1 h2⟩

/-- Fallback message used to state positional lookups (never produced by an
in-range index). -/
def defaultMsg : Msg := { type := MsgType.note_on, channel := 0, note := 0, velocity := 0, time := 0 }

/-- The two messages `sequence2midi` builds for one note: a `note_on` stamped
with the note's `start_time` and a `note_off` stamped with its `end_time`,
both carrying the note's pitch and velocity (channel defaults to 0). -/
def noteMsgs (n : NoteEvent) : List Msg :=
  [{ type := MsgType.note_on, channel := 0, note := n.pitch, velocity := n.velocity, time := n.start_time },
   { type := MsgType.note_off, channel := 0, note := n.pitch, velocity := n.velocity, time := n.end_time }]

/-- All messages `sequence2midi` inserts into `midictionary`, in insertion
order (note order, `note_on` before `note_off` for each note). -/
def seqMsgs (notes : List NoteEvent) : List Msg := notes.flatMap noteMsgs

/-- Reordering of the dictionary entries by an index list: models iterating
over the keys of `midictionary`.  The mido 1.1 messages used as keys hash by
object identity under Python 2, so the dictionary keeps one entry per message
and its iteration order is arbitrary; a run of the code corresponds to some
`ord` that is a permutation of the entry indices. -/
def applyOrder (ord : List ℕ) (l : List Msg) : List Msg :=
  ord.map (fun i => l.getD i defaultMsg)

/-- Model of `MonoMidiHub.sequence2midi`: builds one `note_on`/`note_off` message pair
per note, keyed in `midictionary` by message with the timestamp as value, and
returns `sorted(midictionary, key=midictionary.__getitem__)` together with
the sequence's tempo entry.  Python's `sorted` is stable, which
`List.insertionSort` with a `≤` relation reproduces; `ord` is the dictionary
iteration order of the particular run. -/
def sequence2midi (notes : List NoteEvent) (qpm : ℚ) (ord : List ℕ) : List Msg × ℚ :=
  (List.insertionSort timeLE (applyOrder ord (seqMsgs notes)), qpm)

/-- Outputs of the playback thread: sequence messages and the all-notes-off
`outport.panic()` call. -/
inductive PlayerOut where
  | note (m : Msg)
  | panic

/-- Model of `MonoMidiPlayer.run`.  The loop checks the cooperative stop flag at the
head of every iteration; `stop_at` is the iteration at which the check first
observes the flag set (pass `stop_at ≥ length` for a run that is never
stopped).  A message is emitted only when its timestamp has reached the
playhead, which then advances to it; on observing the stop flag the thread
emits one panic and returns without touching the remaining messages. -/
def player_run : ℕ → ℚ → List Msg → List PlayerOut
  | _, _, [] => []
  | 0, _, _ :: _ => [PlayerOut.panic]
  | stop_at + 1, playhead, m :: rest =>
    if playhead ≤ m.time then PlayerOut.note m :: player_run stop_at m.time rest
    else player_run stop_at playhead rest

/-- The emissions of an uncancelled run over a message list (the loop body of
`MonoMidiPlayer.run` without the stop check). -/
def emitted : ℚ → List Msg → List PlayerOut
  | _, [] => []
  | playhead, m :: rest =>
    if playhead ≤ m.time then PlayerOut.note m :: emitted m.time rest
    else emitted playhead rest

/-- The playhead value after an uncancelled run over a message list. -/
def playheadAfter : ℚ → List Msg → ℚ
  | playhead, [] => playhead
  | playhead, m :: rest =>
    if playhead ≤ m.time then playheadAfter m.time rest else playheadAfter playhead rest

/-- Python `dict` lookup in the association-list model of a Python dict
(keys are unique, so the first match is the only one). -/
def dictLookup : List (ℕ × ℕ) → ℕ → Option ℕ
  | [], _ => none
  | (k2, v) :: rest, k => if k2 = k then some v else dictLookup rest k

/-- Assignment `d[k] = v` on the association-list model of a Python dict: overwrite the
entry in place if the key is present, otherwise append it. -/
def dictInsert : List (ℕ × ℕ) → ℕ → ℕ → List (ℕ × ℕ)
  | [], k, v => [(k, v)]
  | (k2, v2) :: rest, k, v =>
    if k2 = k then (k, v) :: rest else (k2, v2) :: dictInsert rest k v

/-- Removal `d.pop(k)` on the association-list model of a Python dict. -/
def dictRemove : List (ℕ × ℕ) → ℕ → List (ℕ × ℕ)
  | [], _ => []
  | (k2, v2) :: rest, k => if k2 = k then rest else (k2, v2) :: dictRemove rest k

/-- The mutable state of `MonoMidiHub` relevant to capture, together with the
externally visible effects (messages sent to the output port, condition
variables notified) and session liveness markers (`callback_set`: the input
port's capture callback is installed; `metronome_running`: the session's
metronome thread is live). -/
structure HubState where
  captured_notes : List NoteEvent
  tempo_qpm : ℚ
  unclosed_notes : List (ℕ × ℕ)
  note_index : ℕ
  sequence_start_time : Option ℚ
  capture_start_time : ℚ
  control_cvs : List (List ℕ)
  notified : List (List ℕ)
  output : List Msg
  metronome_velocity : ℕ
  callback_set : Bool
  metronome_running : Bool

/-- The `_CUSTOM_CC_MAP` configuration: the identities of the messages that
start capture, stop capture, and set the metronome velocity. -/
structure CCMap where
  start_capture : Msg
  stop_capture : Msg
  metronome_velocity_cc : Msg

/-- The default `_CUSTOM_CC_MAP` of the source: modulation wheel value 127
starts capture, value 0 stops it, controller 60 sets metronome velocity
(mido defaults the omitted value byte to 0). -/
def _CUSTOM_CC_MAP : CCMap where
  start_capture := { type := MsgType.control_change, channel := 0, note := 1, velocity := 127, time := 0 }
  stop_capture := { type := MsgType.control_change, channel := 0, note := 1, velocity := 0, time := 0 }
  metronome_velocity_cc := { type := MsgType.control_change, channel := 0, note := 60, velocity := 0, time := 0 }

/-- The `for value in _CUSTOM_CC_MAP.values()` scan of `_capture_message`:
does the message's two-byte prefix match any configured CC map entry?  (All
branches of that loop call `execute_cc_message` and return, so the dict's
iteration order is immaterial.) -/
def ccParamMatch (cc : CCMap) (m : Msg) : Prop :=
  m.bytes2 = cc.start_capture.bytes2 ∨ m.bytes2 = cc.stop_capture.bytes2 ∨
    m.bytes2 = cc.metronome_velocity_cc.bytes2

instance (cc : CCMap) (m : Msg) : Decidable (ccParamMatch cc m) := by
  unfold ccParamMatch
  infer_instance

/-- Model of `MonoMidiHub.execute_cc_message`: a CC message matching the metronome
velocity entry updates the (global) metronome velocity; everything else is
absorbed. -/
def execute_cc_message (cc : CCMap) (s : HubState) (m : Msg) : HubState :=
  if m.bytes2 = cc.metronome_velocity_cc.bytes2 then
    { s with metronome_velocity := m.velocity }
  else s

/-- The start/stop-capture branch of `_capture_message`: notify the condition
variable registered under the message's hex key, if any. -/
def notifyControl (s : HubState) (m : Msg) : HubState :=
  if m.hexKey ∈ s.control_cvs then { s with notified := m.hexKey :: s.notified } else s

/-- The note-on branch of `_capture_message` (`velocity > 0`): on the first
note of the session compute the sequence origin by snapping the message
timestamp back to the previous quarter-note boundary relative to the capture
start; forward the message; append a new open note and index it. -/
def note_on_capture (s : HubState) (m : Msg) : HubState :=
  let origin : ℚ :=
    match s.sequence_start_time with
    | none => m.time - pymod (m.time - s.capture_start_time) (60 / s.tempo_qpm)
    | some t => t
  let new_note : NoteEvent :=
    { pitch := m.note, velocity := m.velocity, start_time := m.time - origin, end_time := 0 }
  { s with
      sequence_start_time := some origin
      output := s.output ++ [m]
      captured_notes := s.captured_notes ++ [new_note]
      unclosed_notes := dictInsert s.unclosed_notes m.note s.note_index
      note_index := s.note_index + 1 }

/-- Assignment `captured_sequence.notes[i].end_time = t`.  An out-of-range index leaves
the list unchanged; the handlers only ever use indices stored in
`unclosed_notes`, which are in range in every reachable state (C10). -/
def setEnd (ns : List NoteEvent) (i : ℕ) (t : ℚ) : List NoteEvent :=
  match ns[i]? with
  | some n => ns.set i { n with end_time := t }
  | none => ns

/-- The note-off branch of `_capture_message` (a `note_off`, or a `note_on`
with velocity 0): forward the message; if the pitch has an open note, stamp
its `end_time` relative to the session origin and drop it from the index.
The origin is only read when an open note exists, where it is set (the
`getD 0` default is never exercised in a reachable state). -/
def note_off_capture (s : HubState) (m : Msg) : HubState :=
  let s1 := { s with output := s.output ++ [m] }
  match dictLookup s.unclosed_notes m.note with
  | some i =>
    { s1 with
        captured_notes := setEnd s.captured_notes i (m.time - s.sequence_start_time.getD 0)
        unclosed_notes := dictRemove s.unclosed_notes m.note }
  | none => s1

/-- Model of `MonoMidiHub._capture_message`: dispatch on start/stop-capture identity,
then on CC-map prefix match, then on note messages. -/
def capture_message (cc : CCMap) (s : HubState) (m : Msg) : HubState :=
  if msgEq m cc.start_capture ∨ msgEq m cc.stop_capture then notifyControl s m
  else if ccParamMatch cc m then execute_cc_message cc s m
  else if m.type = MsgType.note_on ∨ m.type = MsgType.note_off then
    (if m.type = MsgType.note_on ∧ 0 < m.velocity then note_on_capture s m
     else if m.type = MsgType.note_off ∨ (m.type = MsgType.note_on ∧ m.velocity = 0) then
       note_off_capture s m
     else s)
  else s

/-- Model of `MonoMidiHub.start_capture`: reset the capture sequence (with the given
tempo), the open-note index, the counter and the session origin; record the
capture start time; install the capture callback and start a fresh metronome. -/
def start_capture (s : HubState) (qpm : ℚ) (now : ℚ) : HubState :=
  { s with
      captured_notes := []
      tempo_qpm := qpm
      unclosed_notes := []
      note_index := 0
      sequence_start_time := none
      capture_start_time := now
      callback_set := true
      metronome_running := true }

/-- The loop of `flash_capture`: assign `end_time := t` at every index stored
in the open-note map. -/
def closeAll (ns : List NoteEvent) (idxs : List ℕ) (t : ℚ) : List NoteEvent :=
  idxs.foldl (fun acc i => setEnd acc i t) ns

/-- Model of `MonoMidiHub.flash_capture` at wall-clock time `now`: force-close every
still-open note at `now` relative to the session origin and return the
captured sequence (the `captured_notes` of the resulting state).  Nothing
else is touched: the open-note map keeps its entries, the callback stays
installed and the metronome keeps running.  As in `note_off_capture`, the
origin is only read when an open note exists. -/
def flash_capture (s : HubState) (now : ℚ) : HubState :=
  { s with
      captured_notes :=
        closeAll s.captured_notes (s.unclosed_notes.map (fun kv => kv.2))
          (now - s.sequence_start_time.getD 0) }

/-- The capture-session counter/index invariant of C10. -/
def capInv (s : HubState) : Prop :=
  s.note_index = s.captured_notes.length ∧
    ∀ kv ∈ s.unclosed_notes, kv.2 < s.note_index

instance (s : HubState) : Decidable (capInv s) := by
  unfold capInv
  exact instDecidableAnd

/-- Python truthiness of an optional string flag (`None` and the empty
string are falsy). -/
def pyTruthy : Option String → Bool
  | none => false
  | some s => !s.isEmpty

/-- The keys of `_GENERATOR_FACTORY_MAP`: the recognized model identifiers. -/
def _GENERATOR_FACTORY_NAMES : List String := ["attention_rnn", "basic_rnn", "lookback_rnn"]

/-- The result of `sequence_generator_bundle.read_bundle_file` (external):
only the `generator_details.id` field is consulted. -/
structure BundleFile where
  generator_id : String

/-- The state a successfully constructed `Generator` holds. -/
structure GeneratorState where
  name : String
  num_bars_to_generate : ℕ

/-- The `GeneratorException` cases raised by `Generator.__init__`. -/
inductive GeneratorErr where
  | no_checkpoint_or_bundle
  | bundle_conflict
  | invalid_generator_name

/-- The generator name `Generator.__init__` checks against the factory map:
the bundle's id if a bundle file is (truthily) given, the `generator_name`
argument otherwise (`none` models Python `None`, which is not a key of the
map). -/
def resolvedGeneratorName (read_bundle : String → BundleFile)
    (generator_name : Option String) (bundle_file : Option String) : Option String :=
  if pyTruthy bundle_file then some (read_bundle (bundle_file.getD "")).generator_id
  else generator_name

/-- Model of `Generator.__init__`: validation and construction.  `read_bundle` models
the external bundle loader, `hparams_nonempty` the truthiness of the hparams
dict.  On any validation failure a `GeneratorException` is raised before any
generator state exists. -/
def generatorInit (read_bundle : String → BundleFile) (generator_name : Option String)
    (num_bars : ℕ) (hparams_nonempty : Bool) (checkpoint bundle_file : Option String) :
    Except GeneratorErr GeneratorState :=
  if !pyTruthy checkpoint && !pyTruthy bundle_file then
    Except.error GeneratorErr.no_checkpoint_or_bundle
  else if (pyTruthy checkpoint || pyTruthy generator_name || hparams_nonempty)
      && pyTruthy bundle_file then
    Except.error GeneratorErr.bundle_conflict
  else
    match resolvedGeneratorName read_bundle generator_name bundle_file with
    | some n =>
      if n ∈ _GENERATOR_FACTORY_NAMES then Except.ok { name := n, num_bars_to_generate := num_bars }
      else Except.error GeneratorErr.invalid_generator_name
    | none => Except.error GeneratorErr.invalid_generator_name

/-- A hub that has not yet started a session. -/
def initialHub : HubState where
  captured_notes := []
  tempo_qpm := 90
  unclosed_notes := []
  note_index := 0
  sequence_start_time := none
  capture_start_time := 0
  control_cvs := []
  notified := []
  output := []
  metronome_velocity := 64
  callback_set := false
  metronome_running := false

/-- A note-on at pitch 60, velocity 100, arriving at time 0. -/
def c1noteOn : Msg :=
  { type := MsgType.note_on, channel := 0, note := 60, velocity := 100, time := 0 }

/-- The capture state reached from `initialHub` by `start_capture 90` at time
0 followed by `c1noteOn`: one open note at pitch 60 (see
`wstate_reachable`). -/
def wstate : HubState where
  captured_notes := [{ pitch := 60, velocity := 100, start_time := 0, end_time := 0 }]
  tempo_qpm := 90
  unclosed_notes := [(60, 0)]
  note_index := 1
  sequence_start_time := some 0
  capture_start_time := 0
  control_cvs := []
  notified := []
  output := [c1noteOn]
  metronome_velocity := 64
  callback_set := true
  metronome_running := true

/-- Two notes with identical start times and identical end times, producing
timestamp ties in `sequence2midi`. -/
def c2notes : List NoteEvent :=
  [{ pitch := 60, velocity := 100, start_time := 0, end_time := 1 },
   { pitch := 62, velocity := 100, start_time := 0, end_time := 1 }]

/-- A two-message playback schedule for the C4 witness. -/
def c4msgs : List Msg :=
  [{ type := MsgType.note_on, channel := 0, note := 60, velocity := 100, time := 0 },
   { type := MsgType.note_off, channel := 0, note := 60, velocity := 100, time := 1 }]

theorem pymod_nonneg (a : ℚ) {b : ℚ} (hb : 0 < b) : 0 ≤ pymod a b := by
  have h := Int.floor_le (a / b)
  have h2 : b * (⌊a / b⌋ : ℚ) ≤ b * (a / b) := by
    exact mul_le_mul_of_nonneg_left h (le_of_lt hb)
  rw [mul_div_cancel₀ a (ne_of_gt hb)] at h2
  unfold pymod
  linarith

theorem pymod_lt (a : ℚ) {b : ℚ} (hb : 0 < b) : pymod a b < b := by
  have h := Int.lt_floor_add_one (a / b)
  have h2 : b * (a / b) < b * ((⌊a / b⌋ : ℚ) + 1) := by
    exact mul_lt_mul_of_pos_left h hb
  rw [mul_div_cancel₀ a (ne_of_gt hb)] at h2
  unfold pymod
  linarith

theorem pymod_sub_eq (a b : ℚ) :
    ∃ k : ℤ, a - pymod a b = b * k := ⟨⌊a / b⌋, by unfold pymod; ring⟩

theorem pymod_four_eq_one_iff (x : ℚ) : pymod x 4 = 1 ↔ ∃ k : ℤ, x = 4 * k + 1 := by
  constructor
  · intro h
    refine ⟨⌊x / 4⌋, ?_⟩
    unfold pymod at h
    linarith
  · rintro ⟨k, rfl⟩
    unfold pymod
    have h4 : ((4 : ℚ) * k + 1) / 4 = k + 1 / 4 := by ring
    rw [h4]
    have hf : ⌊(k : ℚ) + 1 / 4⌋ = k + ⌊(1 : ℚ) / 4⌋ := Int.floor_int_add k (1 / 4)
    have hq : ⌊(1 : ℚ) / 4⌋ = 0 := by norm_num
    rw [hf, hq]
    push_cast
    ring

theorem tick_counter_eq (n : ℕ) : tick_counter n = 1 + n / 16 := by
  induction n with
  | zero => simp [tick_counter]
  | succ k ih =>
    rw [tick_counter, ih]
    push_cast
    ring

theorem accent_iff (n : ℕ) : accent n ↔ 64 ∣ n := by
  unfold accent _QUARTER_PER_BAR
  rw [tick_counter_eq, pymod_four_eq_one_iff]
  constructor
  · rintro ⟨k, hk⟩
    have hq : (n : ℚ) = 64 * k := by linarith
    have hz : (n : ℤ) = 64 * k := by exact_mod_cast hq
    have : ((64 : ℕ) : ℤ) ∣ (n : ℤ) := ⟨k, by omega⟩
    exact_mod_cast this
  · rintro ⟨m, rfl⟩
    refine ⟨m, ?_⟩
    push_cast
    ring

/-- C3: the metronome tick counter starts at 1 and each loop iteration adds
exactly 1/16; but the accent condition `tick % 4 == 1` does NOT hold on every
16th tick: at the 16th iteration the counter is 2 and `2 % 4 = 2 ≠ 1`, so the
claimed characterisation of the accent ticks is false at tick 16. -/
theorem C3_counterexample : ¬ (accent 16 ↔ 16 ∣ 16) := by
  intro h
  have h16 : (16 : ℕ) ∣ 16 := dvd_refl 16
  have ha : accent 16 := h.mpr h16
  rw [accent_iff] at ha
  omega

/-- C3 (amended): along every run of the metronome loop the tick counter
starts at 1 and increases by exactly 1/16 per loop iteration, and the accent
condition `tick % 4 == 1` holds on exactly every 64th tick (one bar = 4
quarter notes of 16 sub-ticks each), not every 16th. -/
theorem C3_tick_counter_amended :
    tick_counter 0 = 1 ∧ (∀ n, tick_counter (n + 1) = tick_counter n + 1 / 16) ∧
      ∀ n, accent n ↔ 64 ∣ n := by
  refine ⟨rfl, fun n => rfl, accent_iff⟩

theorem map_getD_range {α : Type} (l : List α) (d : α) :
    (List.range l.length).map (fun i => l.getD i d) = l := by
  apply List.ext_getElem
  · simp
  · intro i h1 h2
    simp only [List.getElem_map, List.getElem_range]
    simp [List.getD_eq_getElem?_getD, List.getElem?_eq_getElem h2]

theorem applyOrder_perm (ord : List ℕ) (l : List Msg)
    (h : ord.Perm (List.range l.length)) : (applyOrder ord l).Perm l := by
  have hm := h.map (fun i => l.getD i defaultMsg)
  rw [map_getD_range l defaultMsg] at hm
  exact hm

theorem seqMsgs_length (notes : List NoteEvent) : (seqMsgs notes).length = 2 * notes.length := by
  induction notes with
  | nil => rfl
  | cons n rest ih =>
    simp only [seqMsgs, List.flatMap_cons, List.length_append, noteMsgs, List.length_cons,
      List.length_nil] at *
    omega

/-- C2: the claim's tie-breaking is false.  On two notes with identical
start times and identical end times, a legitimate dictionary iteration order
(the Python 2 dict iterates its keys in hash-table order, not insertion
order) makes `sequence2midi` order the tied messages differently from the
original note order, which stable sorting of the insertion-order list (the
claimed output) would produce. -/
theorem C2_counterexample :
    ([2, 3, 0, 1] : List ℕ).Perm (List.range (seqMsgs c2notes).length) ∧
      (sequence2midi c2notes 90 [2, 3, 0, 1]).1 ≠
        List.insertionSort timeLE (seqMsgs c2notes) := by
  constructor
  · have hlen : (seqMsgs c2notes).length = 4 := by
      rw [seqMsgs_length]
      rfl
    rw [hlen]
    decide
  · have hL : (sequence2midi c2notes 90 [2, 3, 0, 1]).1 =
        [{ type := MsgType.note_on, channel := 0, note := 62, velocity := 100, time := 0 },
         { type := MsgType.note_on, channel := 0, note := 60, velocity := 100, time := 0 },
         { type := MsgType.note_off, channel := 0, note := 62, velocity := 100, time := 1 },
         { type := MsgType.note_off, channel := 0, note := 60, velocity := 100, time := 1 }] := by
      norm_num [sequence2midi, applyOrder, seqMsgs, noteMsgs, c2notes, defaultMsg,
        List.getD, List.insertionSort, List.orderedInsert, timeLE]
    have hR : List.insertionSort timeLE (seqMsgs c2notes) =
        [{ type := MsgType.note_on, channel := 0, note := 60, velocity := 100, time := 0 },
         { type := MsgType.note_on, channel := 0, note := 62, velocity := 100, time := 0 },
         { type := MsgType.note_off, channel := 0, note := 60, velocity := 100, time := 1 },
         { type := MsgType.note_off, channel := 0, note := 62, velocity := 100, time := 1 }] := by
      norm_num [seqMsgs, noteMsgs, c2notes, List.insertionSort, List.orderedInsert, timeLE]
    rw [hL, hR]
    intro h
    simp [Msg.mk.injEq] at h

/-- C2 (amended): for every input sequence of `n` notes and every dictionary
iteration order, `sequence2midi` returns exactly `2n` messages — one
`note_on` stamped with each note's `start_time` and one `note_off` stamped
with each note's `end_time` (the output is a permutation of `seqMsgs`) —
sorted ascending by timestamp, together with the sequence tempo.  Ties
between equal timestamps follow the dictionary iteration order, which is
arbitrary in Python 2, not the original note order. -/
theorem C2_sequence2midi_sorted_perm (notes : List NoteEvent) (qpm : ℚ) (ord : List ℕ)
    (h : ord.Perm (List.range (seqMsgs notes).length)) :
    (sequence2midi notes qpm ord).1.length = 2 * notes.length ∧
      (sequence2midi notes qpm ord).1.Perm (seqMsgs notes) ∧
      List.Sorted timeLE (sequence2midi notes qpm ord).1 ∧
      (sequence2midi notes qpm ord).2 = qpm := by
  have hperm : (sequence2midi notes qpm ord).1.Perm (seqMsgs notes) :=
    (List.perm_insertionSort timeLE (applyOrder ord (seqMsgs notes))).trans
      (applyOrder_perm ord (seqMsgs notes) h)
  refine ⟨?_, hperm, List.sorted_insertionSort timeLE _, rfl⟩
  rw [hperm.length_eq, seqMsgs_length]

/-- Witness for C2's amended theorem at a concrete input: the two-note
sequence `c2notes` with the identity dictionary order. -/
theorem C2_sequence2midi_sorted_perm_witness :
    (sequence2midi c2notes 90 [0, 1, 2, 3]).1.length = 2 * c2notes.length ∧
      (sequence2midi c2notes 90 [0, 1, 2, 3]).1.Perm (seqMsgs c2notes) ∧
      List.Sorted timeLE (sequence2midi c2notes 90 [0, 1, 2, 3]).1 ∧
      (sequence2midi c2notes 90 [0, 1, 2, 3]).2 = 90 := by
  refine C2_sequence2midi_sorted_perm c2notes 90 [0, 1, 2, 3] ?_
  have hlen : (seqMsgs c2notes).length = 4 := by
    rw [seqMsgs_length]
    rfl
  rw [hlen]
  decide

theorem le_playheadAfter (ph : ℚ) (l : List Msg) : ph ≤ playheadAfter ph l := by
  induction l generalizing ph with
  | nil => simp [playheadAfter]
  | cons m rest ih =>
    by_cases h : ph ≤ m.time
    · simp only [playheadAfter, if_pos h]
      exact le_trans h (ih m.time)
    · simp only [playheadAfter, if_neg h]
      exact ih ph

theorem emitted_mem_note (ph : ℚ) (l : List Msg) (x : PlayerOut) (hx : x ∈ emitted ph l) :
    ∃ m, x = PlayerOut.note m ∧ m.time ≤ playheadAfter ph l := by
  induction l generalizing ph with
  | nil => simp [emitted] at hx
  | cons m rest ih =>
    by_cases h : ph ≤ m.time
    · simp only [emitted, if_pos h] at hx
      simp only [playheadAfter, if_pos h]
      rcases List.mem_cons.mp hx with h1 | h1
      · exact ⟨m, h1, le_playheadAfter m.time rest⟩
      · exact ih m.time h1
    · simp only [emitted, if_neg h] at hx
      simp only [playheadAfter, if_neg h]
      exact ih ph hx

theorem emitted_length_le (ph : ℚ) (l : List Msg) : (emitted ph l).length ≤ l.length := by
  induction l generalizing ph with
  | nil => simp [emitted]
  | cons m rest ih =>
    by_cases h : ph ≤ m.time
    · simp only [emitted, if_pos h, List.length_cons]
      exact Nat.succ_le_succ (ih m.time)
    · simp only [emitted, if_neg h, List.length_cons]
      exact le_trans (ih ph) (Nat.le_succ _)

theorem player_run_stopped (l : List Msg) (stop_at : ℕ) (ph : ℚ) (h : stop_at < l.length) :
    player_run stop_at ph l = emitted ph (l.take stop_at) ++ [PlayerOut.panic] := by
  induction l generalizing stop_at ph with
  | nil => simp at h
  | cons m rest ih =>
    match stop_at with
    | 0 => simp [player_run, emitted]
    | k + 1 =>
      have hk : k < rest.length := by
        simp only [List.length_cons] at h
        omega
      by_cases hp : ph ≤ m.time
      · simp only [player_run, if_pos hp, List.take_succ_cons, emitted, List.cons_append]
        rw [ih k m.time hk]
      · simp only [player_run, if_neg hp, List.take_succ_cons, emitted]
        exact ih k ph hk

/-- C4: if the playback thread observes the stop flag at iteration `stop_at`
while messages remain unplayed, then the run's output is the messages emitted
over the first `stop_at` schedule entries followed by exactly one
all-notes-off panic, nothing (and in particular no panic) precedes it other
than note emissions, at most `stop_at` messages are emitted before the panic
(so the panic comes within one scheduling iteration of the cancellation),
no remaining schedule entry is processed after it, and every emitted
message's logical timestamp is at most the playhead at the cancellation
point. -/
theorem C4_player_cancellation (notes : List Msg) (start_time : ℚ) (stop_at : ℕ)
    (h : stop_at < notes.length) :
    player_run stop_at start_time notes =
        emitted start_time (notes.take stop_at) ++ [PlayerOut.panic] ∧
      (∀ x ∈ emitted start_time (notes.take stop_at), x ≠ PlayerOut.panic) ∧
      (emitted start_time (notes.take stop_at)).length ≤ stop_at ∧
      ∀ m, PlayerOut.note m ∈ emitted start_time (notes.take stop_at) →
        m.time ≤ playheadAfter start_time (notes.take stop_at) := by
  refine ⟨player_run_stopped notes stop_at start_time h, ?_, ?_, ?_⟩
  · intro x hx
    rcases emitted_mem_note _ _ x hx with ⟨m, rfl, -⟩
    simp
  · exact le_trans (emitted_length_le _ _)
      (by rw [List.length_take]; exact min_le_left _ _)
  · intro m hm
    rcases emitted_mem_note _ _ _ hm with ⟨m2, he, hle⟩
    cases he
    exact hle

/-- Witness for C4 at a concrete input: a two-message schedule cancelled at
iteration 1. -/
theorem C4_player_cancellation_witness :
    player_run 1 0 c4msgs = emitted 0 (c4msgs.take 1) ++ [PlayerOut.panic] ∧
      (∀ x ∈ emitted 0 (c4msgs.take 1), x ≠ PlayerOut.panic) ∧
      (emitted 0 (c4msgs.take 1)).length ≤ 1 ∧
      ∀ m, PlayerOut.note m ∈ emitted 0 (c4msgs.take 1) →
        m.time ≤ playheadAfter 0 (c4msgs.take 1) :=
  C4_player_cancellation c4msgs 0 1 (by simp [c4msgs])

theorem setEnd_length (ns : List NoteEvent) (i : ℕ) (t : ℚ) :
    (setEnd ns i t).length = ns.length := by
  unfold setEnd
  cases h : ns[i]? with
  | none => rfl
  | some n => simp [List.length_set]

theorem setEnd_getElem? (ns : List NoteEvent) (i : ℕ) (t : ℚ) (j : ℕ) :
    (setEnd ns i t)[j]? =
      if i = j then (ns[j]?).map (fun n => { n with end_time := t }) else ns[j]? := by
  unfold setEnd
  cases h : ns[i]? with
  | none =>
    by_cases hij : i = j
    · subst hij
      simp [h]
    · simp [hij]
  | some n =>
    have hlt : i < ns.length := by
      by_contra hge
      rw [List.getElem?_eq_none (Nat.le_of_not_lt hge)] at h
      exact Option.noConfusion h
    by_cases hij : i = j
    · subst hij
      simp [List.getElem?_set, h, hlt]
    · simp [List.getElem?_set, hij]

theorem closeAll_cons (ns : List NoteEvent) (i : ℕ) (rest : List ℕ) (t : ℚ) :
    closeAll ns (i :: rest) t = closeAll (setEnd ns i t) rest t := rfl

theorem closeAll_length (ns : List NoteEvent) (idxs : List ℕ) (t : ℚ) :
    (closeAll ns idxs t).length = ns.length := by
  induction idxs generalizing ns with
  | nil => rfl
  | cons i rest ih =>
    rw [closeAll_cons, ih, setEnd_length]

theorem closeAll_getElem? (ns : List NoteEvent) (idxs : List ℕ) (t : ℚ) (j : ℕ) :
    (closeAll ns idxs t)[j]? =
      if j ∈ idxs then (ns[j]?).map (fun n => { n with end_time := t }) else ns[j]? := by
  have hcomp : ∀ o : Option NoteEvent,
      (o.map (fun n => { n with end_time := t })).map (fun n => { n with end_time := t }) =
        o.map (fun n => { n with end_time := t }) := by
    intro o
    cases o <;> rfl
  induction idxs generalizing ns with
  | nil => simp [closeAll]
  | cons i rest ih =>
    rw [closeAll_cons, ih, setEnd_getElem?]
    by_cases hj : j ∈ rest
    · by_cases hij : i = j <;> simp [hj, hij, hcomp]
    · by_cases hij : i = j
      · subst hij
        simp [hj]
      · simp [hj, hij, Ne.symm hij]

/-- C1: the claim is false as stated.  From the reachable one-open-note state
`wstate` (see `wstate_reachable`), flushing at time 1 and then again at time
2 with no intervening input returns two snapshots whose (only) notes carry
different `end_time`s: `flash_capture` re-closes every still-open note at the
current time on each call. -/
theorem C1_counterexample :
    (flash_capture (flash_capture wstate 1) 2).captured_notes ≠
      (flash_capture wstate 1).captured_notes := by
  norm_num [flash_capture, wstate, closeAll, setEnd, NoteEvent.mk.injEq]

/-- C1 (amended): flushing twice with no intervening input always yields
snapshots with the same note count and identical `start_time`s (and pitches),
and the snapshots are fully identical whenever the two flushes happen at the
same instant, or no note is open; moreover a flush never ends the session:
the open-note index, session origin, input callback and metronome are all
left untouched.  Open notes, however, get re-closed at each flush's own
"now", so their `end_time`s differ across flushes at different times (see the
counterexample). -/
theorem C1_flash_capture_amended (s : HubState) (t1 t2 : ℚ) :
    (flash_capture (flash_capture s t1) t2).captured_notes.length =
        (flash_capture s t1).captured_notes.length ∧
      (∀ j : ℕ, ((flash_capture (flash_capture s t1) t2).captured_notes[j]?).map
          NoteEvent.start_time =
        ((flash_capture s t1).captured_notes[j]?).map NoteEvent.start_time) ∧
      (t1 = t2 → (flash_capture (flash_capture s t1) t2).captured_notes =
        (flash_capture s t1).captured_notes) ∧
      (s.unclosed_notes = [] → (flash_capture (flash_capture s t1) t2).captured_notes =
        (flash_capture s t1).captured_notes) ∧
      (flash_capture s t1).unclosed_notes = s.unclosed_notes ∧
      (flash_capture s t1).sequence_start_time = s.sequence_start_time ∧
      (flash_capture s t1).callback_set = s.callback_set ∧
      (flash_capture s t1).metronome_running = s.metronome_running := by
  refine ⟨?_, ?_, ?_, ?_, rfl, rfl, rfl, rfl⟩
  · simp [flash_capture, closeAll_length]
  · intro j
    simp only [flash_capture]
    rw [closeAll_getElem?, closeAll_getElem?]
    by_cases hj : j ∈ s.unclosed_notes.map (fun kv => kv.2)
    · simp only [hj, if_true, Option.map_map]
      cases s.captured_notes[j]? <;> rfl
    · simp [hj]
  · intro h
    subst h
    simp only [flash_capture]
    apply List.ext_getElem?
    intro j
    rw [closeAll_getElem?, closeAll_getElem?]
    by_cases hj : j ∈ s.unclosed_notes.map (fun kv => kv.2)
    · simp only [hj, if_true]
      cases s.captured_notes[j]? <;> rfl
    · simp [hj]
  · intro h
    simp [flash_capture, h, closeAll]

/-- Witness for C1's amended theorem: both flushes of `wstate` at the same
time 1 return identical snapshots and leave the session running. -/
theorem C1_flash_capture_amended_witness :
    (flash_capture (flash_capture wstate 1) 1).captured_notes.length =
        (flash_capture wstate 1).captured_notes.length ∧
      (∀ j : ℕ, ((flash_capture (flash_capture wstate 1) 1).captured_notes[j]?).map
          NoteEvent.start_time =
        ((flash_capture wstate 1).captured_notes[j]?).map NoteEvent.start_time) ∧
      ((1 : ℚ) = 1 → (flash_capture (flash_capture wstate 1) 1).captured_notes =
        (flash_capture wstate 1).captured_notes) ∧
      (wstate.unclosed_notes = [] → (flash_capture (flash_capture wstate 1) 1).captured_notes =
        (flash_capture wstate 1).captured_notes) ∧
      (flash_capture wstate 1).unclosed_notes = wstate.unclosed_notes ∧
      (flash_capture wstate 1).sequence_start_time = wstate.sequence_start_time ∧
      (flash_capture wstate 1).callback_set = wstate.callback_set ∧
      (flash_capture wstate 1).metronome_running = wstate.metronome_running :=
  C1_flash_capture_amended wstate 1 1

theorem dictLookup_dictInsert_self (d : List (ℕ × ℕ)) (k v : ℕ) :
    dictLookup (dictInsert d k v) k = some v := by
  induction d with
  | nil => simp [dictInsert, dictLookup]
  | cons p rest ih =>
    obtain ⟨k2, v2⟩ := p
    by_cases h : k2 = k
    · simp [dictInsert, h, dictLookup]
    · simp [dictInsert, h, dictLookup, ih]

theorem dictInsert_mem (d : List (ℕ × ℕ)) (k v : ℕ) (kv : ℕ × ℕ)
    (h : kv ∈ dictInsert d k v) : kv = (k, v) ∨ kv ∈ d := by
  induction d with
  | nil => simp [dictInsert] at h; simp [h]
  | cons p rest ih =>
    obtain ⟨k2, v2⟩ := p
    by_cases h2 : k2 = k
    · rw [dictInsert, if_pos h2] at h
      rcases List.mem_cons.mp h with h3 | h3
      · exact Or.inl h3
      · exact Or.inr (List.mem_cons_of_mem _ h3)
    · rw [dictInsert, if_neg h2] at h
      rcases List.mem_cons.mp h with h3 | h3
      · exact Or.inr (by simp [h3])
      · rcases ih h3 with h4 | h4
        · exact Or.inl h4
        · exact Or.inr (List.mem_cons_of_mem _ h4)

theorem dictRemove_subset (d : List (ℕ × ℕ)) (k : ℕ) (kv : ℕ × ℕ)
    (h : kv ∈ dictRemove d k) : kv ∈ d := by
  induction d with
  | nil => simp [dictRemove] at h
  | cons p rest ih =>
    obtain ⟨k2, v2⟩ := p
    by_cases h2 : k2 = k
    · rw [dictRemove, if_pos h2] at h
      exact List.mem_cons_of_mem _ h
    · rw [dictRemove, if_neg h2] at h
      rcases List.mem_cons.mp h with h3 | h3
      · simp [h3]
      · exact List.mem_cons_of_mem _ (ih h3)

theorem dictLookup_mem_values (d : List (ℕ × ℕ)) (k v : ℕ)
    (h : dictLookup d k = some v) : v ∈ d.map (fun kv => kv.2) := by
  induction d with
  | nil => simp [dictLookup] at h
  | cons p rest ih =>
    obtain ⟨k2, v2⟩ := p
    by_cases h2 : k2 = k
    · rw [dictLookup, if_pos h2] at h
      simp at h
      simp [h]
    · rw [dictLookup, if_neg h2] at h
      simp [ih h]

theorem capture_message_note (s : HubState) (m : Msg) (hch : m.channel < 16)
    (hty : m.type = MsgType.note_on ∨ m.type = MsgType.note_off) :
    capture_message _CUSTOM_CC_MAP s m =
      if m.type = MsgType.note_on ∧ 0 < m.velocity then note_on_capture s m
      else if m.type = MsgType.note_off ∨ (m.type = MsgType.note_on ∧ m.velocity = 0) then
        note_off_capture s m
      else s := by
  have h1 : ¬(msgEq m _CUSTOM_CC_MAP.start_capture ∨ msgEq m _CUSTOM_CC_MAP.stop_capture) := by
    rintro (hc | hc) <;> rcases hty with hty2 | hty2 <;>
      simp [msgEq, _CUSTOM_CC_MAP, hty2] at hc
  have h2 : ¬ccParamMatch _CUSTOM_CC_MAP m := by
    rintro (hc | hc | hc) <;> rcases hty with hty2 | hty2 <;>
      · simp [Msg.bytes2, statusByte, hty2, _CUSTOM_CC_MAP] at hc
        omega
  simp only [capture_message]
  rw [if_neg h1, if_neg h2, if_pos hty]

/-- C5: a note-on with nonzero velocity for a pitch that already has an open
note appends a new open NoteEvent (with `end_time` still at its default 0)
and overwrites that pitch's open-index entry with the new note's index, while
every existing note — in particular the one at the previously open index `j`
— is left byte-for-byte untouched, so the earlier note's `end_time` is never
set by this message. -/
theorem C5_duplicate_note_on (s : HubState) (m : Msg) (j : ℕ)
    (hopen : dictLookup s.unclosed_notes m.note = some j)
    (hj : j < s.captured_notes.length) (hty : m.type = MsgType.note_on)
    (hvel : 0 < m.velocity) (hch : m.channel < 16) :
    (capture_message _CUSTOM_CC_MAP s m).captured_notes.length =
        s.captured_notes.length + 1 ∧
      (∃ nn : NoteEvent, (capture_message _CUSTOM_CC_MAP s m).captured_notes =
        s.captured_notes ++ [nn] ∧ nn.pitch = m.note ∧ nn.velocity = m.velocity ∧
        nn.end_time = 0) ∧
      (∀ i : ℕ, i < s.captured_notes.length →
        (capture_message _CUSTOM_CC_MAP s m).captured_notes[i]? = s.captured_notes[i]?) ∧
      (capture_message _CUSTOM_CC_MAP s m).captured_notes[j]? = s.captured_notes[j]? ∧
      dictLookup (capture_message _CUSTOM_CC_MAP s m).unclosed_notes m.note =
        some s.note_index := by
  rw [capture_message_note s m hch (Or.inl hty), if_pos ⟨hty, hvel⟩]
  refine ⟨by simp [note_on_capture], ?_, ?_, ?_, ?_⟩
  · cases hss : s.sequence_start_time with
    | none =>
      have hn : (note_on_capture s m).captured_notes = s.captured_notes ++
          [{ pitch := m.note, velocity := m.velocity,
             start_time := m.time -
               (m.time - pymod (m.time - s.capture_start_time) (60 / s.tempo_qpm)),
             end_time := 0 }] := by
        simp [note_on_capture, hss]
      exact ⟨_, hn, rfl, rfl, rfl⟩
    | some t0 =>
      have hn : (note_on_capture s m).captured_notes = s.captured_notes ++
          [{ pitch := m.note, velocity := m.velocity, start_time := m.time - t0,
             end_time := 0 }] := by
        simp [note_on_capture, hss]
      exact ⟨_, hn, rfl, rfl, rfl⟩
  · intro i hi
    simp only [note_on_capture]
    exact List.getElem?_append_left hi
  · simp only [note_on_capture]
    exact List.getElem?_append_left hj
  · simp only [note_on_capture]
    exact dictLookup_dictInsert_self s.unclosed_notes m.note s.note_index

/-- A second note-on at pitch 60 while `wstate`'s pitch-60 note is open. -/
theorem C5_duplicate_note_on_witness :
    (capture_message _CUSTOM_CC_MAP wstate
        { type := MsgType.note_on, channel := 0, note := 60, velocity := 101, time := 1 }
      ).captured_notes.length = wstate.captured_notes.length + 1 ∧
      (∃ nn : NoteEvent, (capture_message _CUSTOM_CC_MAP wstate
          { type := MsgType.note_on, channel := 0, note := 60, velocity := 101, time := 1 }
        ).captured_notes = wstate.captured_notes ++ [nn] ∧ nn.pitch = 60 ∧
        nn.velocity = 101 ∧ nn.end_time = 0) ∧
      (∀ i : ℕ, i < wstate.captured_notes.length →
        (capture_message _CUSTOM_CC_MAP wstate
            { type := MsgType.note_on, channel := 0, note := 60, velocity := 101, time := 1 }
          ).captured_notes[i]? = wstate.captured_notes[i]?) ∧
      (capture_message _CUSTOM_CC_MAP wstate
          { type := MsgType.note_on, channel := 0, note := 60, velocity := 101, time := 1 }
        ).captured_notes[0]? = wstate.captured_notes[0]? ∧
      dictLookup (capture_message _CUSTOM_CC_MAP wstate
          { type := MsgType.note_on, channel := 0, note := 60, velocity := 101, time := 1 }
        ).unclosed_notes 60 = some wstate.note_index :=
  C5_duplicate_note_on wstate
    { type := MsgType.note_on, channel := 0, note := 60, velocity := 101, time := 1 } 0
    (by decide) (by decide) rfl (by decide) (by decide)

/-- The state `wstate` is the state a real session reaches: start capture at
tempo 90 at time 0, then receive a note-on at pitch 60, velocity 100, time 0. -/
theorem wstate_reachable :
    capture_message _CUSTOM_CC_MAP (start_capture initialHub 90 0) c1noteOn = wstate := by
  rw [capture_message_note _ c1noteOn (by norm_num [c1noteOn]) (Or.inl rfl)]
  rw [if_pos ⟨rfl, by norm_num [c1noteOn]⟩]
  norm_num [note_on_capture, start_capture, initialHub, c1noteOn, wstate, pymod, dictInsert]

/-- C6: for the first note-on of a session (origin still unset), the origin
is set to the message timestamp minus `(timestamp - capture_start) mod
(60/qpm)` — that is, to a point at a whole number of quarter-note periods
after the capture start, at most one period before the message — and the new
note's recorded `start_time` is the message timestamp minus that origin. -/
theorem C6_first_note_origin (s : HubState) (m : Msg)
    (hfirst : s.sequence_start_time = none) (hty : m.type = MsgType.note_on)
    (hvel : 0 < m.velocity) (hch : m.channel < 16) (hqpm : 0 < s.tempo_qpm) :
    (capture_message _CUSTOM_CC_MAP s m).sequence_start_time =
        some (m.time - pymod (m.time - s.capture_start_time) (60 / s.tempo_qpm)) ∧
      (capture_message _CUSTOM_CC_MAP s m).captured_notes[s.captured_notes.length]? =
        some { pitch := m.note, velocity := m.velocity,
               start_time := m.time -
                 (m.time - pymod (m.time - s.capture_start_time) (60 / s.tempo_qpm)),
               end_time := 0 } ∧
      (∃ k : ℤ, m.time - pymod (m.time - s.capture_start_time) (60 / s.tempo_qpm) =
        s.capture_start_time + (60 / s.tempo_qpm) * k) ∧
      m.time - pymod (m.time - s.capture_start_time) (60 / s.tempo_qpm) ≤ m.time ∧
      m.time - (m.time - pymod (m.time - s.capture_start_time) (60 / s.tempo_qpm)) <
        60 / s.tempo_qpm := by
  have hper : 0 < 60 / s.tempo_qpm := div_pos (by norm_num) hqpm
  rw [capture_message_note s m hch (Or.inl hty), if_pos ⟨hty, hvel⟩]
  refine ⟨by simp [note_on_capture, hfirst], ?_, ?_, ?_, ?_⟩
  · have hn : (note_on_capture s m).captured_notes = s.captured_notes ++
        [{ pitch := m.note, velocity := m.velocity,
           start_time := m.time -
             (m.time - pymod (m.time - s.capture_start_time) (60 / s.tempo_qpm)),
           end_time := 0 }] := by
      simp [note_on_capture, hfirst]
    rw [hn]
    exact List.getElem?_concat_length _ _
  · obtain ⟨k, hk⟩ := pymod_sub_eq (m.time - s.capture_start_time) (60 / s.tempo_qpm)
    exact ⟨k, by linarith⟩
  · have := pymod_nonneg (m.time - s.capture_start_time) hper
    linarith
  · have := pymod_lt (m.time - s.capture_start_time) hper
    linarith

/-- Witness for C6: from a freshly started session (tempo 90, capture start
at time 0), a first note-on at time 1/2. -/
theorem C6_first_note_origin_witness :
    (capture_message _CUSTOM_CC_MAP (start_capture initialHub 90 0)
        { type := MsgType.note_on, channel := 0, note := 64, velocity := 90, time := 1 / 2 }
      ).sequence_start_time =
        some ((1 : ℚ) / 2 - pymod ((1 : ℚ) / 2 - (start_capture initialHub 90 0).capture_start_time)
          (60 / (start_capture initialHub 90 0).tempo_qpm)) ∧
      (capture_message _CUSTOM_CC_MAP (start_capture initialHub 90 0)
          { type := MsgType.note_on, channel := 0, note := 64, velocity := 90, time := 1 / 2 }
        ).captured_notes[(start_capture initialHub 90 0).captured_notes.length]? =
        some { pitch := 64, velocity := 90,
               start_time := (1 : ℚ) / 2 -
                 ((1 : ℚ) / 2 - pymod ((1 : ℚ) / 2 - (start_capture initialHub 90 0).capture_start_time)
                   (60 / (start_capture initialHub 90 0).tempo_qpm)),
               end_time := 0 } ∧
      (∃ k : ℤ, (1 : ℚ) / 2 - pymod ((1 : ℚ) / 2 - (start_capture initialHub 90 0).capture_start_time)
          (60 / (start_capture initialHub 90 0).tempo_qpm) =
        (start_capture initialHub 90 0).capture_start_time +
          (60 / (start_capture initialHub 90 0).tempo_qpm) * k) ∧
      (1 : ℚ) / 2 - pymod ((1 : ℚ) / 2 - (start_capture initialHub 90 0).capture_start_time)
          (60 / (start_capture initialHub 90 0).tempo_qpm) ≤ (1 : ℚ) / 2 ∧
      (1 : ℚ) / 2 - ((1 : ℚ) / 2 - pymod ((1 : ℚ) / 2 - (start_capture initialHub 90 0).capture_start_time)
          (60 / (start_capture initialHub 90 0).tempo_qpm)) <
        60 / (start_capture initialHub 90 0).tempo_qpm :=
  C6_first_note_origin (start_capture initialHub 90 0)
    { type := MsgType.note_on, channel := 0, note := 64, velocity := 90, time := 1 / 2 }
    rfl rfl (by norm_num) (by norm_num) (by norm_num [start_capture, initialHub])

/-- C7: a message matching the configured start- or stop-capture identity
only notifies the condition variable registered under its hex key (if one is
registered) and leaves the captured sequence, the open-note index, the
session origin, the note counter and the output port untouched. -/
theorem C7_control_signal_frame (cc : CCMap) (s : HubState) (m : Msg)
    (h : msgEq m cc.start_capture ∨ msgEq m cc.stop_capture) :
    (capture_message cc s m).captured_notes = s.captured_notes ∧
      (capture_message cc s m).unclosed_notes = s.unclosed_notes ∧
      (capture_message cc s m).sequence_start_time = s.sequence_start_time ∧
      (capture_message cc s m).note_index = s.note_index ∧
      (capture_message cc s m).output = s.output ∧
      (m.hexKey ∈ s.control_cvs → (capture_message cc s m).notified = m.hexKey :: s.notified) ∧
      (m.hexKey ∉ s.control_cvs → (capture_message cc s m).notified = s.notified) := by
  have he : capture_message cc s m = notifyControl s m := by
    simp only [capture_message]
    rw [if_pos h]
  rw [he]
  unfold notifyControl
  by_cases hm : m.hexKey ∈ s.control_cvs <;> simp [hm]

/-- Witness for C7: the default start-capture message (with a nonzero
timestamp, which mido equality ignores) arriving at `wstate`, which has no
registered condition variables. -/
theorem C7_control_signal_frame_witness :
    (capture_message _CUSTOM_CC_MAP wstate
        { type := MsgType.control_change, channel := 0, note := 1, velocity := 127, time := 5 }
      ).captured_notes = wstate.captured_notes ∧
      (capture_message _CUSTOM_CC_MAP wstate
          { type := MsgType.control_change, channel := 0, note := 1, velocity := 127, time := 5 }
        ).unclosed_notes = wstate.unclosed_notes ∧
      (capture_message _CUSTOM_CC_MAP wstate
          { type := MsgType.control_change, channel := 0, note := 1, velocity := 127, time := 5 }
        ).sequence_start_time = wstate.sequence_start_time ∧
      (capture_message _CUSTOM_CC_MAP wstate
          { type := MsgType.control_change, channel := 0, note := 1, velocity := 127, time := 5 }
        ).note_index = wstate.note_index ∧
      (capture_message _CUSTOM_CC_MAP wstate
          { type := MsgType.control_change, channel := 0, note := 1, velocity := 127, time := 5 }
        ).output = wstate.output ∧
      (Msg.hexKey { type := MsgType.control_change, channel := 0, note := 1, velocity := 127, time := 5 }
          ∈ wstate.control_cvs →
        (capture_message _CUSTOM_CC_MAP wstate
            { type := MsgType.control_change, channel := 0, note := 1, velocity := 127, time := 5 }
          ).notified =
          Msg.hexKey { type := MsgType.control_change, channel := 0, note := 1, velocity := 127, time := 5 }
            :: wstate.notified) ∧
      (Msg.hexKey { type := MsgType.control_change, channel := 0, note := 1, velocity := 127, time := 5 }
          ∉ wstate.control_cvs →
        (capture_message _CUSTOM_CC_MAP wstate
            { type := MsgType.control_change, channel := 0, note := 1, velocity := 127, time := 5 }
          ).notified = wstate.notified) :=
  C7_control_signal_frame _CUSTOM_CC_MAP wstate
    { type := MsgType.control_change, channel := 0, note := 1, velocity := 127, time := 5 }
    (Or.inl (by decide))

/-- C9: `flash_capture` never removes entries from the open-note index, so a
pitch force-closed by a flush stays mapped: a later flush re-closes the same
note at its own time, and a later note-off for that pitch overwrites the same
note's `end_time` once more (and only then consumes the index entry). -/
theorem C9_flash_keeps_unclosed (s : HubState) (t t2 : ℚ) (m : Msg) (j : ℕ)
    (hty : m.type = MsgType.note_off) (hch : m.channel < 16)
    (hopen : dictLookup s.unclosed_notes m.note = some j) :
    (flash_capture s t).unclosed_notes = s.unclosed_notes ∧
      ((flash_capture s t).captured_notes[j]?).map NoteEvent.end_time =
        (s.captured_notes[j]?).map (fun _ => t - s.sequence_start_time.getD 0) ∧
      ((flash_capture (flash_capture s t) t2).captured_notes[j]?).map NoteEvent.end_time =
        (s.captured_notes[j]?).map (fun _ => t2 - s.sequence_start_time.getD 0) ∧
      ((capture_message _CUSTOM_CC_MAP (flash_capture s t) m).captured_notes[j]?).map
          NoteEvent.end_time =
        (s.captured_notes[j]?).map (fun _ => m.time - s.sequence_start_time.getD 0) ∧
      (capture_message _CUSTOM_CC_MAP (flash_capture s t) m).unclosed_notes =
        dictRemove s.unclosed_notes m.note := by
  have hjmem : j ∈ s.unclosed_notes.map (fun kv => kv.2) :=
    dictLookup_mem_values _ _ _ hopen
  have hno : ¬(m.type = MsgType.note_on ∧ 0 < m.velocity) := by simp [hty]
  refine ⟨rfl, ?_, ?_, ?_, ?_⟩
  · simp only [flash_capture]
    rw [closeAll_getElem?]
    simp only [hjmem, if_true]
    cases s.captured_notes[j]? <;> rfl
  · simp only [flash_capture]
    rw [closeAll_getElem?, closeAll_getElem?]
    simp only [hjmem, if_true]
    cases s.captured_notes[j]? <;> rfl
  · rw [capture_message_note _ m hch (Or.inr hty), if_neg hno, if_pos (Or.inl hty)]
    simp only [note_off_capture, flash_capture, hopen]
    rw [setEnd_getElem?, if_pos rfl, closeAll_getElem?]
    simp only [hjmem, if_true, Option.map_map]
    cases s.captured_notes[j]? <;> rfl
  · rw [capture_message_note _ m hch (Or.inr hty), if_neg hno, if_pos (Or.inl hty)]
    simp only [note_off_capture, flash_capture, hopen]

/-- Witness for C9: `wstate`'s open pitch-60 note, flushed at times 1 and 2,
then closed by a note-off at time 3. -/
theorem C9_flash_keeps_unclosed_witness :
    (flash_capture wstate 1).unclosed_notes = wstate.unclosed_notes ∧
      ((flash_capture wstate 1).captured_notes[0]?).map NoteEvent.end_time =
        (wstate.captured_notes[0]?).map (fun _ => 1 - wstate.sequence_start_time.getD 0) ∧
      ((flash_capture (flash_capture wstate 1) 2).captured_notes[0]?).map NoteEvent.end_time =
        (wstate.captured_notes[0]?).map (fun _ => 2 - wstate.sequence_start_time.getD 0) ∧
      ((capture_message _CUSTOM_CC_MAP (flash_capture wstate 1)
          { type := MsgType.note_off, channel := 0, note := 60, velocity := 0, time := 3 }
        ).captured_notes[0]?).map NoteEvent.end_time =
        (wstate.captured_notes[0]?).map (fun _ => 3 - wstate.sequence_start_time.getD 0) ∧
      (capture_message _CUSTOM_CC_MAP (flash_capture wstate 1)
          { type := MsgType.note_off, channel := 0, note := 60, velocity := 0, time := 3 }
        ).unclosed_notes = dictRemove wstate.unclosed_notes 60 :=
  C9_flash_keeps_unclosed wstate 1 2
    { type := MsgType.note_off, channel := 0, note := 60, velocity := 0, time := 3 } 0
    rfl (by decide) (by decide)

/-- C10: the counter/index invariant — `note_index` equals the number of
captured notes and every open-note index is strictly below it — is
established by `start_capture` (which resets sequence, index map and counter
together) and preserved by every capture-message dispatch and by
`flash_capture`. -/
theorem C10_capture_invariant (cc : CCMap) (s : HubState) (qpm now t : ℚ) (m : Msg)
    (h : capInv s) :
    capInv (start_capture s qpm now) ∧ capInv (capture_message cc s m) ∧
      capInv (flash_capture s t) := by
  obtain ⟨hlen, hvals⟩ := h
  refine ⟨⟨rfl, by simp [start_capture]⟩, ?_, ?_⟩
  · unfold capture_message
    split_ifs with h1 h2 h3 h4 h5
    · unfold notifyControl
      split_ifs <;> exact ⟨hlen, hvals⟩
    · unfold execute_cc_message
      split_ifs <;> exact ⟨hlen, hvals⟩
    · constructor
      · simp [note_on_capture, hlen]
      · intro kv hkv
        simp only [note_on_capture] at hkv
        rcases dictInsert_mem _ _ _ _ hkv with h6 | h6
        · subst h6
          simp [note_on_capture]
        · have h7 := hvals kv h6
          simp only [note_on_capture]
          omega
    · unfold note_off_capture
      cases hl : dictLookup s.unclosed_notes m.note with
      | some i =>
        simp only [hl]
        constructor
        · simp [setEnd_length, hlen]
        · intro kv hkv
          simp only at hkv
          exact hvals kv (dictRemove_subset _ _ _ hkv)
      | none =>
        simp only [hl]
        exact ⟨hlen, hvals⟩
    · exact ⟨hlen, hvals⟩
    · exact ⟨hlen, hvals⟩
  · refine ⟨?_, fun kv hkv => hvals kv hkv⟩
    simp [flash_capture, closeAll_length, hlen]

/-- Witness for C10 at the reachable state `wstate`. -/
theorem C10_capture_invariant_witness :
    capInv (start_capture wstate 120 3) ∧
      capInv (capture_message _CUSTOM_CC_MAP wstate c1noteOn) ∧
      capInv (flash_capture wstate 2) :=
  C10_capture_invariant _CUSTOM_CC_MAP wstate 120 3 2 c1noteOn (by decide)

/-- C8: `Generator.__init__` raises a `GeneratorException` exactly when no
checkpoint and no bundle reference is supplied, or a bundle is supplied
together with a (truthy) checkpoint, generator name or non-empty hparams, or
the resolved generator name (the bundle's id when a bundle is given, the
`generator_name` argument otherwise) is not a recognized model identifier;
and on such a failure no generator state is constructed. -/
theorem C8_generator_validation (rb : String → BundleFile) (gn : Option String)
    (nb : ℕ) (hp : Bool) (cp bf : Option String) :
    ((∃ e, generatorInit rb gn nb hp cp bf = Except.error e) ↔
      ((pyTruthy cp = false ∧ pyTruthy bf = false) ∨
        (pyTruthy bf = true ∧
          (pyTruthy cp = true ∨ pyTruthy gn = true ∨ hp = true)) ∨
        ∀ n, resolvedGeneratorName rb gn bf = some n → n ∉ _GENERATOR_FACTORY_NAMES)) ∧
      ∀ e, generatorInit rb gn nb hp cp bf = Except.error e →
        ∀ g, generatorInit rb gn nb hp cp bf ≠ Except.ok g := by
  constructor
  · unfold generatorInit
    by_cases hcp : pyTruthy cp <;> by_cases hbf : pyTruthy bf <;>
      simp only [hcp, hbf, Bool.not_true, Bool.not_false, Bool.false_and, Bool.and_false,
        Bool.true_and, Bool.and_true, Bool.true_or, Bool.or_true, Bool.false_or,
        Bool.true_and, if_true, if_false, Bool.false_and, ite_true, ite_false]
    · -- cp true, bf true: conflict branch fires
      simp
    · -- cp true, bf false: no first two errors; resolved = gn
      cases hr : resolvedGeneratorName rb gn bf with
      | some n =>
        by_cases hn : n ∈ _GENERATOR_FACTORY_NAMES <;>
          simp [hn, hr, hcp, hbf]
      | none => simp [hr, hcp, hbf]
    · -- cp false, bf true
      by_cases hgn : pyTruthy gn
      · simp [hgn, hbf]
      · by_cases hhp : hp
        · simp [hgn, hhp, hbf]
        · simp only [hgn, hhp, Bool.or_false, Bool.false_or, Bool.and_self, if_false,
            Bool.false_and, Bool.and_true, Bool.true_and, ite_false, ite_true]
          cases hr : resolvedGeneratorName rb gn bf with
          | some n =>
            by_cases hn : n ∈ _GENERATOR_FACTORY_NAMES <;>
              simp [hn, hr, hcp, hbf, hgn, hhp]
          | none => simp [hr, hcp, hbf, hgn, hhp]
    · -- cp false, bf false: first branch fires
      simp
  · intro e he g hg
    rw [he] at hg
    exact Except.noConfusion hg

/-- Witness for C8: with neither checkpoint nor bundle supplied, construction
fails, matching the first disjunct. -/
theorem C8_generator_validation_witness :
    ((∃ e, generatorInit (fun _ => { generator_id := "basic_rnn" }) none 5 false none none =
        Except.error e) ↔
      ((pyTruthy none = false ∧ pyTruthy none = false) ∨
        (pyTruthy none = true ∧
          (pyTruthy none = true ∨ pyTruthy none = true ∨ false = true)) ∨
        ∀ n, resolvedGeneratorName (fun _ => { generator_id := "basic_rnn" }) none none = some n →
          n ∉ _GENERATOR_FACTORY_NAMES)) ∧
      ∀ e, generatorInit (fun _ => { generator_id := "basic_rnn" }) none 5 false none none =
          Except.error e →
        ∀ g, generatorInit (fun _ => { generator_id := "basic_rnn" }) none 5 false none none ≠
          Except.ok g :=
  C8_generator_validation (fun _ => { generator_id := "basic_rnn" }) none 5 false none none
